import Mathlib

/-!
Verification development for the kivik result-set / iterator machinery.

The Go sources embedded here are `resultset.go` (two revisions: the older one
with `Finish`/`EOQ`, and the newer one with `NextResultSet`/`Metadata`),
`updates.go`, and the tests in `iterator_test.go`.  The iterator core
(`iterator.go`: `iter`, `newIterator`, `makeReady`, the state machine) is not
among the sources; where a definition depends on it, the definition is
modelled from the specification (§4.1 of the spec) and is marked
`Modelled from the spec:` in its doc comment.

Machine integers (Go `int`, `int64`) are modelled as `Int`/`Nat`; none of the
embedded code can overflow on the inputs considered.  Go `error` values are
modelled by the inductive `GoError`; a Go `error` result is `Option GoError`
(`none` = `nil`).  Fallible decodes are `Except GoError β`.
-/

/-- Go `error` values occurring in the embedded code: `errors.New(msg)`
produces `errorsNew msg`; the kivik `&Error{Status: s, Message: m}` produces
`kivik s m`; JSON decode failures are `decodeErr msg`. -/
inductive GoError where
  | errorsNew (msg : String)
  | kivik (status : Nat) (message : String)
  | decodeErr (msg : String)
  deriving DecidableEq, Repr

/-- Modelled from the spec: the iterator-core state machine states of
`iterator.go` (spec §4.1): `Init`, `RowReady`, `EndOfQuery`,
`ResultSetReady`, `Closed`. -/
inductive IterState where
  | init
  | rowReady
  | eoq
  | resultSetReady
  | closed
  deriving DecidableEq, Repr

/-- One outcome of the feed's `Next(slot)` call (spec §3, §6): success with a
fetched item, end-of-data (`io.EOF`), end-of-query (`driver.EOQ`), or any
other error. -/
inductive Fetch (α : Type) where
  | ok (a : α)
  | eod
  | eoq
  | fail (e : GoError)
  deriving DecidableEq, Repr

/-- Modelled from the spec: the iterator core (`iter` of the missing
`iterator.go`, spec §3/§4.1).  The feed is modelled as the list of outcomes
its successive `Next` calls return; `curVal` is the current slot, `lasterr`
the sticky terminal error.  Cancellation scopes and locks are not modelled
(no claim here concerns real time or concurrency interleavings). -/
structure Iter (α : Type) where
  feed : List (Fetch α)
  state : IterState
  curVal : α
  lasterr : Option GoError
  deriving DecidableEq, Repr

/-- `newIterator(ctx, feed, zeroSlot)`: fresh iterator in state `Init` with
the zero-valued slot as current value and no recorded error. -/
def newIterator (feed : List (Fetch α)) (slot : α) : Iter α :=
  { feed := feed, state := IterState.init, curVal := slot, lasterr := none }

/-- Modelled from the spec: `advance()` of the iterator core (spec §4.1).
Returns (result of `Next`, iterator afterwards, the fetch outcome consumed
from the feed — `none` when the call was a no-op).  Calling it while
`Closed`, with a recorded error, or from `EndOfQuery` (not a valid source
state per the spec) performs no fetch and returns false; otherwise one feed
outcome is consumed: success makes the state `RowReady` and updates the
current value; end-of-data closes; end-of-query moves to `EndOfQuery`; any
other error is recorded in `lasterr` and closes.  An exhausted feed list is
treated as end-of-data. -/
def advance (it : Iter α) : Bool × Iter α × Option (Fetch α) :=
  if it.state = IterState.closed then (false, it, none)
  else if it.lasterr.isSome then (false, it, none)
  else if it.state = IterState.eoq then (false, it, none)
  else
    match it.feed with
    | [] => (false, { it with state := IterState.closed }, none)
    | Fetch.ok a :: rest =>
        (true, { it with feed := rest, state := IterState.rowReady, curVal := a },
          some (Fetch.ok a))
    | Fetch.eod :: rest =>
        (false, { it with feed := rest, state := IterState.closed }, some Fetch.eod)
    | Fetch.eoq :: rest =>
        (false, { it with feed := rest, state := IterState.eoq }, some Fetch.eoq)
    | Fetch.fail e :: rest =>
        (false, { it with feed := rest, state := IterState.closed, lasterr := some e },
          some (Fetch.fail e))

/-- `iter.Err()`: the sticky error recorded during iteration (end-of-data is
not an error). -/
def iterErr (it : Iter α) : Option GoError :=
  it.lasterr

/-- Results of `n` successive `Next()` calls, together with the iterator
reached afterwards. -/
def runNext : Nat → Iter α → List Bool × Iter α
  | 0, it => ([], it)
  | n + 1, it =>
      let s := advance it
      let r := runNext n s.2.1
      (s.1 :: r.1, r.2)

/-! ### ResultSet / Rows machinery (`resultset.go`) -/

/-- `driver.Row`: one raw result row.  JSON payloads (`Key`, `Value`, `Doc`)
are modelled as raw strings; Go `nil` byte slices / readers are `none`.  The
older revision of `resultset.go` carries both `Doc`/`DocReader` and
`Value`/`ValueReader`; `Value` is a plain byte slice there (`""` for nil). -/
structure Row where
  id : String := ""
  key : String := ""
  value : String := ""
  valueReader : Option String := none
  doc : Option String := none
  docReader : Option String := none
  error : Option GoError := none
  deriving DecidableEq, Repr

/-- `ResultMetadata` of `resultset.go`. -/
structure ResultMetadata where
  offset : Int := 0
  totalRows : Int := 0
  updateSeq : String := ""
  warning : String := ""
  bookmark : String := ""
  deriving DecidableEq, Repr

/-- The underlying `driver.Rows` feed capabilities: `Offset`, `TotalRows` and
`UpdateSeq` are required interface methods; `warner`/`bookmarker` are `some`
exactly when the driver additionally implements `driver.RowsWarner` /
`driver.Bookmarker` (the optional capability extensions of spec §6). -/
structure DriverRows where
  offset : Int := 0
  totalRows : Int := 0
  updateSeq : String := ""
  warner : Option String := none
  bookmarker : Option String := none
  deriving DecidableEq, Repr

/-- The metadata record built by `rowsIterator.Next` when the wrapped
`driver.Rows.Next` returns `io.EOF` or `driver.EOQ`: required fields are read
directly, the optional `RowsWarner`/`Bookmarker` capabilities are queried
defensively (absent capability leaves the zero value). -/
def captureMetadata (d : DriverRows) : ResultMetadata :=
  { offset := d.offset, totalRows := d.totalRows, updateSeq := d.updateSeq,
    warning := d.warner.getD "", bookmark := d.bookmarker.getD "" }

/-- The `rows` type of `resultset.go`: the iterator core over `driver.Row`
slots, the driver capability record, the metadata captured by the
`rowsIterator` feed wrapper, and the locally recorded error field
`rows.err`. -/
structure RowsIter where
  it : Iter Row
  drv : DriverRows
  meta : Option ResultMetadata
  rerr : Option GoError
  deriving DecidableEq, Repr

/-- `newRows`: a fresh rows iterator over the given feed outcomes, with a
zero `driver.Row` slot. -/
def newRows (drv : DriverRows) (feed : List (Fetch Row)) : RowsIter :=
  { it := newIterator feed {}, drv := drv, meta := none, rerr := none }

/-- `rows.Next()`: the core `advance` over the `rowsIterator` feed wrapper,
whose `Next` captures the result metadata at the instant the wrapped feed
returns `io.EOF` or `driver.EOQ`. -/
def rowsNext (r : RowsIter) : Bool × RowsIter :=
  let s := advance r.it
  let meta' :=
    match s.2.2 with
    | some Fetch.eod => some (captureMetadata r.drv)
    | some Fetch.eoq => some (captureMetadata r.drv)
    | _ => r.meta
  (s.1, { r with it := s.2.1, meta := meta' })

/-- Results of `n` successive `rows.Next()` calls, with the rows iterator
reached afterwards. -/
def runRows : Nat → RowsIter → List Bool × RowsIter
  | 0, r => ([], r)
  | n + 1, r =>
      let s := rowsNext r
      let t := runRows n s.2
      (s.1 :: t.1, t.2)

/-- The sticky error set by `rows.NextResultSet` when called in `RowReady`. -/
def errNextResultSet : GoError :=
  GoError.errorsNew "must call NextResultSet before Next"

/-- `rows.NextResultSet()` (newer `resultset.go`): returns false if an error
is recorded or the state is `Closed`; called in `RowReady` it records the
sticky error and returns false; otherwise it moves the state to
`ResultSetReady` and returns true. -/
def nextResultSet (r : RowsIter) : Bool × RowsIter :=
  if r.it.lasterr.isSome then (false, r)
  else if r.it.state = IterState.closed then (false, r)
  else if r.it.state = IterState.rowReady then
    (false, { r with it := { r.it with lasterr := some errNextResultSet } })
  else (true, { r with it := { r.it with state := IterState.resultSetReady } })

/-- The "not ready" error of `rows.Metadata` (`&Error{Status:
http.StatusBadRequest, Err: errors.New(...)}`). -/
def metadataNotReady : GoError :=
  GoError.kivik 400 "Metadata must not be called until result set iteration is complete"

/-- `rows.Metadata()` (newer `resultset.go`): unless the state is
`EndOfQuery` or `Closed`, fails with the bad-request "not ready" error;
otherwise returns the metadata pointer captured by the feed wrapper (possibly
still nil, modelled as `none`). -/
def rowsMetadata (r : RowsIter) : Option GoError × Option ResultMetadata :=
  if r.it.state = IterState.eoq ∨ r.it.state = IterState.closed then (none, r.meta)
  else (some metadataNotReady, none)

/-- Modelled from the spec: `close()` of the missing iterator core (spec
§4.1): idempotent, transitions any state to `Closed`, does not alter an
already-recorded `lastError`.  Feed close errors are not modelled (no claim
below depends on them). -/
def iterClose (it : Iter α) : Option GoError × Iter α :=
  if it.state = IterState.closed then (none, it)
  else (none, { it with state := IterState.closed })

/-- Modelled from the spec: `makeReady` / `currentValueAccess()` of the
missing iterator core (spec §4.1): if the state is `Init`, perform one
implicit advance followed by one implicit close; otherwise return the
current value unchanged. -/
def makeReady (r : RowsIter) : RowsIter :=
  if r.it.state = IterState.init then
    let s := rowsNext r
    { s.2 with it := (iterClose s.2.it).2 }
  else r

/-- The "no document in result" error of `rows.ScanDoc`. -/
def noDocErr : GoError :=
  GoError.kivik 400 "kivik: doc is nil; does the query include docs?"

/-- `rows.ScanDoc(dest)`: returns the locally recorded `rows.err` if set;
otherwise makes the row ready, propagates the row-level error, and decodes
the document payload (`DocReader` first, then `Doc`) into `dest`; with no
document payload it fails with the bad-request `noDocErr`.  Decoding into
`dest` is abstracted by `dec`, the outcome of `json` decoding the given raw
payload into the caller's destination. -/
def scanDoc (r : RowsIter) (dec : String → Option GoError) :
    Option GoError × RowsIter :=
  match r.rerr with
  | some e => (some e, r)
  | none =>
    let r1 := makeReady r
    let row := r1.it.curVal
    match row.error with
    | some e => (some e, r1)
    | none =>
      match row.docReader with
      | some p => (dec p, r1)
      | none =>
        match row.doc with
        | some p => (dec p, r1)
        | none => (some noDocErr, r1)

/-- `rows.ScanValue(dest)` (older `resultset.go`): the `rows.err` guard, the
row-level error, then decode from `ValueReader` if non-nil, else unmarshal
the `Value` bytes. -/
def scanValue (r : RowsIter) (dec : String → Option GoError) :
    Option GoError × RowsIter :=
  match r.rerr with
  | some e => (some e, r)
  | none =>
    let r1 := makeReady r
    let row := r1.it.curVal
    match row.error with
    | some e => (some e, r1)
    | none =>
      match row.valueReader with
      | some p => (dec p, r1)
      | none => (dec row.value, r1)

/-- `rows.ScanKey(dest)`: the `rows.err` guard, the row-level error, then
unmarshal the `Key` bytes. -/
def scanKey (r : RowsIter) (dec : String → Option GoError) :
    Option GoError × RowsIter :=
  match r.rerr with
  | some e => (some e, r)
  | none =>
    let r1 := makeReady r
    let row := r1.it.curVal
    match row.error with
    | some e => (some e, r1)
    | none => (dec row.key, r1)

/-! ### The errored result set `errRS` -/

/-- `errRS`: a result set that has errored (`resultset.go`). -/
structure ErrRS where
  err : GoError
  deriving DecidableEq, Repr

def ErrRS.Next (_ : ErrRS) : Bool := false

def ErrRS.NextResultSet (_ : ErrRS) : Bool := false

def ErrRS.Err (e : ErrRS) : Option GoError := some e.err

def ErrRS.Close (e : ErrRS) : Option GoError := some e.err

def ErrRS.Metadata (e : ErrRS) : Option GoError × Option ResultMetadata :=
  (some e.err, none)

def ErrRS.Finish (e : ErrRS) : ResultMetadata × Option GoError :=
  ({}, some e.err)

def ErrRS.ID (_ : ErrRS) : String := ""

def ErrRS.Key (_ : ErrRS) : String := ""

def ErrRS.ScanDoc (e : ErrRS) : Option GoError := some e.err

def ErrRS.ScanKey (e : ErrRS) : Option GoError := some e.err

def ErrRS.ScanValue (e : ErrRS) : Option GoError := some e.err

/-! ### The bulk-scan engine `scanAll` (`resultset.go`)

`scanAll(r, dest, scan)` is generic over the `ResultSet` interface; it calls
only `r.Err()`, `r.Next()`, `r.Close()` and the `scan` callback.  That
interaction surface is modelled by `ScanSource`: `initialErr` is what
`r.Err()` reports on entry, `rows` holds, for each row that `r.Next()` will
deliver, the outcome of `scan`-decoding it (`Except.ok b` decodes to `b`,
`Except.error e` leaves the freshly allocated element at its zero value and
yields error `e`), and `closeErr` is what `r.Close()` returns.

Note on the source: `scanAll` has the named return `err`, and both exits of
its scan loop are literally `return nil`, which resets `err` to nil before
the deferred close function runs; the `err = scan(...)` assigned inside the
loop therefore never reaches the caller.  The loop below threads that
assignment faithfully and the outcome records its final value in
`lastScanErr`, but the returned error (`ScanAllOutcome.err`) is computed
exactly as the source does: body error if non-nil, otherwise the close
error. -/

instance [DecidableEq ε] [DecidableEq α] : DecidableEq (Except ε α)
  | Except.ok a, Except.ok b =>
      if h : a = b then isTrue (congrArg Except.ok h)
      else isFalse fun hc => h (Except.ok.inj hc)
  | Except.ok _, Except.error _ => isFalse fun hc => Except.noConfusion hc
  | Except.error _, Except.ok _ => isFalse fun hc => Except.noConfusion hc
  | Except.error a, Except.error b =>
      if h : a = b then isTrue (congrArg Except.error h)
      else isFalse fun hc => h (Except.error.inj hc)

/-- What `scanAll` sees of the result set it drains. -/
structure ScanSource (β : Type) where
  initialErr : Option GoError := none
  rows : List (Except GoError β) := []
  closeErr : Option GoError := none
  deriving DecidableEq, Repr

/-- The destination argument of `scanAll`, after `reflect` classification:
not a pointer, a nil pointer, a pointer to an array (with its current
cells), a pointer to a slice (with its current elements), or a pointer to
anything else. -/
inductive ScanDest (β : Type) where
  | notPtr
  | nilPtr
  | ptrArray (cells : List β)
  | ptrSlice (elems : List β)
  | ptrOther
  deriving DecidableEq, Repr

/-- Everything observable about one `scanAll` call: the returned error, the
final contents of the destination, the rows not consumed by `Next`, the
number of `Next` calls made, whether `Close` ran (the deferred close runs on
every path), and the final value of the loop-local `err` assignment that the
source discards. -/
structure ScanAllOutcome (β : Type) where
  err : Option GoError
  dest : ScanDest β
  remaining : List (Except GoError β)
  nextCalls : Nat
  closeCalled : Bool
  lastScanErr : Option GoError
  deriving DecidableEq, Repr

def errMustPassPtr : GoError := GoError.errorsNew "must pass a pointer to ScanAllDocs"

def errNilPtr : GoError := GoError.errorsNew "nil pointer passed to ScanAllDocs"

def errZeroLenArray : GoError := GoError.errorsNew "0-length array passed to ScanAllDocs"

def errDestKind : GoError := GoError.errorsNew "dest must be a pointer to a slice or array"

/-- The element written for one row: the decoded value on success, the
freshly allocated zero value when `scan` failed. -/
def elemOf (zero : β) : Except GoError β → β
  | Except.ok b => b
  | Except.error _ => zero

/-- The value `err = scan(vp.Interface())` assigns for one row. -/
def scanErrOf : Except GoError β → Option GoError
  | Except.ok _ => none
  | Except.error e => some e

/-- The scan loop of `scanAll` for an array destination (`limit > 0`):
`for i := 0; r.Next(); i++ { if i >= limit { return nil }; err = scan(vp);
direct.Index(i).Set(vp) }`.  Arguments: loop index, current value of the
`err` variable, rows still to be delivered by `Next`, current array cells.
Returns (final cells, rows left unconsumed, `Next` calls made, final `err`
variable).  Every loop entry costs one `Next` call; reaching the limit
consumes one extra row before returning. -/
def scanArrayLoop (zero : β) (limit : Nat) :
    Nat → Option GoError → List (Except GoError β) → List β →
    List β × List (Except GoError β) × Nat × Option GoError
  | _, errVar, [], cells => (cells, [], 1, errVar)
  | i, errVar, row :: rest, cells =>
      if limit ≤ i then (cells, rest, 1, errVar)
      else
        let out := scanArrayLoop zero limit (i + 1) (scanErrOf row) rest
          (cells.set i (elemOf zero row))
        (out.1, out.2.1, out.2.2.1 + 1, out.2.2.2)

/-- The scan loop of `scanAll` for a slice destination (`limit == 0`):
each row appends one element (`reflect.Append`).  Returns (final elements,
`Next` calls made, final `err` variable). -/
def scanSliceLoop (zero : β) :
    Option GoError → List (Except GoError β) → List β →
    List β × Nat × Option GoError
  | errVar, [], acc => (acc, 1, errVar)
  | _, row :: rest, acc =>
      let out := scanSliceLoop zero (scanErrOf row) rest (acc ++ [elemOf zero row])
      (out.1, out.2.1 + 1, out.2.2)

/-- A return from `scanAll`'s body with error `bodyErr`, as transformed by
the deferred close: `closeErr := r.Close(); if err == nil { err =
closeErr }`. -/
def goReturn (src : ScanSource β) (bodyErr : Option GoError) (dest : ScanDest β)
    (remaining : List (Except GoError β)) (nextCalls : Nat)
    (lastScanErr : Option GoError) : ScanAllOutcome β :=
  { err := match bodyErr with | some e => some e | none => src.closeErr,
    dest := dest, remaining := remaining, nextCalls := nextCalls,
    closeCalled := true, lastScanErr := lastScanErr }

/-- `scanAll(r, dest, scan)` of `resultset.go`: the deferred close on every
path; the `r.Err()` guard; the pointer / nil / kind classification of
`dest`; the zero-length-array rejection; then the scan loop, whose both
exits are `return nil`. -/
def scanAll (src : ScanSource β) (dest : ScanDest β) (zero : β) : ScanAllOutcome β :=
  match src.initialErr with
  | some e => goReturn src (some e) dest src.rows 0 none
  | none =>
    match dest with
    | ScanDest.notPtr => goReturn src (some errMustPassPtr) dest src.rows 0 none
    | ScanDest.nilPtr => goReturn src (some errNilPtr) dest src.rows 0 none
    | ScanDest.ptrOther => goReturn src (some errDestKind) dest src.rows 0 none
    | ScanDest.ptrArray cells =>
        if cells.length = 0 then
          goReturn src (some errZeroLenArray) dest src.rows 0 none
        else
          let out := scanArrayLoop zero cells.length 0 none src.rows cells
          goReturn src none (ScanDest.ptrArray out.1) out.2.1 out.2.2.1 out.2.2.2
    | ScanDest.ptrSlice elems =>
        let out := scanSliceLoop zero none src.rows elems
        goReturn src none (ScanDest.ptrSlice out.1) [] out.2.1 out.2.2

/-! ## Theorems -/

lemma runNext_feed_ok_eod (items : List α) :
    ∀ it : Iter α, it.feed = items.map Fetch.ok ++ [Fetch.eod] →
      it.lasterr = none →
      (it.state = IterState.init ∨ it.state = IterState.rowReady) →
      (runNext (items.length + 1) it).1 = List.replicate items.length true ++ [false] ∧
      (runNext (items.length + 1) it).2.lasterr = none ∧
      (runNext (items.length + 1) it).2.state = IterState.closed := by
  induction items with
  | nil =>
      intro it hfeed herr hstate
      have hs1 : it.state ≠ IterState.closed := by
        rcases hstate with h | h <;> simp [h]
      have hs2 : it.state ≠ IterState.eoq := by
        rcases hstate with h | h <;> simp [h]
      simp only [List.map_nil, List.nil_append] at hfeed
      simp [runNext, advance, hfeed, herr, hs1, hs2]
  | cons a rest ih =>
      intro it hfeed herr hstate
      have hs1 : it.state ≠ IterState.closed := by
        rcases hstate with h | h <;> simp [h]
      have hs2 : it.state ≠ IterState.eoq := by
        rcases hstate with h | h <;> simp [h]
      simp only [List.map_cons, List.cons_append] at hfeed
      have hadv : advance it =
          (true, ⟨rest.map Fetch.ok ++ [Fetch.eod], IterState.rowReady, a, none⟩,
            some (Fetch.ok a)) := by
        simp [advance, hfeed, herr, hs1, hs2]
      have hrec := ih ⟨rest.map Fetch.ok ++ [Fetch.eod], IterState.rowReady, a, none⟩
        rfl rfl (Or.inr rfl)
      have hstep : runNext ((a :: rest).length + 1) it =
          ((advance it).1 :: (runNext (rest.length + 1) (advance it).2.1).1,
            (runNext (rest.length + 1) (advance it).2.1).2) := rfl
      rw [hstep, hadv]
      simp only [List.length_cons]
      exact ⟨by simp [hrec.1, List.replicate_succ], hrec.2.1, hrec.2.2⟩

/-- C3: for every feed that yields N successful items and then signals
end-of-data, N+1 calls of the iterator's `Next()` yield exactly N `true`
results followed by one `false`; afterwards `Err()` is nil and any further
`Next()` still returns false. -/
theorem iterator_n_items_then_eod (items : List α) (slot : α) :
    (runNext (items.length + 1)
        (newIterator (items.map Fetch.ok ++ [Fetch.eod]) slot)).1 =
      List.replicate items.length true ++ [false] ∧
    iterErr (runNext (items.length + 1)
        (newIterator (items.map Fetch.ok ++ [Fetch.eod]) slot)).2 = none ∧
    (advance (runNext (items.length + 1)
        (newIterator (items.map Fetch.ok ++ [Fetch.eod]) slot)).2).1 = false := by
  have h := runNext_feed_ok_eod items
    (newIterator (items.map Fetch.ok ++ [Fetch.eod]) slot) rfl rfl (Or.inl rfl)
  exact ⟨h.1, h.2.1, by simp [advance, h.2.2]⟩

lemma take_set_succ : ∀ (l : List γ) (i : Nat) (x : γ), i < l.length →
    (l.set i x).take (i + 1) = l.take i ++ [x]
  | [], i, x, h => absurd h (by simp)
  | _ :: _, 0, x, _ => rfl
  | a :: t, i + 1, x, h => by
      have ih := take_set_succ t i x (by simpa using h)
      simp [List.set, List.take, ih]

lemma scanArrayLoop_ok_overflow (zero : β) (limit : Nat) :
    ∀ (items : List β) (cells : List β) (i : Nat) (errVar : Option GoError),
      cells.length = limit → i ≤ limit → limit - i < items.length →
      scanArrayLoop zero limit i errVar (items.map Except.ok) cells =
        (cells.take i ++ items.take (limit - i),
          (items.map Except.ok).drop (limit - i + 1),
          limit - i + 1,
          if limit = i then errVar else none) := by
  intro items
  induction items with
  | nil => intro cells i errVar _ _ h3; simp at h3
  | cons a rest ih =>
      intro cells i errVar h1 h2 h3
      by_cases hi : limit ≤ i
      · have hil : i = limit := Nat.le_antisymm h2 hi
        subst hil
        simp [scanArrayLoop, Nat.sub_self, List.take_of_length_le (Nat.le_of_eq h1)]
      · have hlt : i < limit := Nat.lt_of_not_le hi
        have h3r : limit - (i + 1) < rest.length := by
          simp only [List.length_cons] at h3; omega
        have ihr := ih (cells.set i a) (i + 1) none
          (by simpa using h1) hlt h3r
        have hset : (cells.set i a).take (i + 1) = cells.take i ++ [a] :=
          take_set_succ cells i a (by omega)
        simp only [List.map_cons, scanArrayLoop, if_neg hi, scanErrOf, elemOf, ihr, hset,
          Prod.mk.injEq]
        refine ⟨?_, ?_, ?_, ?_⟩
        · have : limit - i = (limit - (i + 1)) + 1 := by omega
          simp [this, List.take_succ_cons, List.append_assoc]
        · have : limit - i + 1 = (limit - (i + 1) + 1) + 1 := by omega
          simp [this]
        · omega
        · rw [ite_self, if_neg (show ¬limit = i by omega)]

lemma getLast?_cons_isSome (b : γ) (t : List γ) : (b :: t).getLast?.isSome = true := by
  induction t generalizing b with
  | nil => rfl
  | cons c u ih => rw [List.getLast?_cons_cons]; exact ih c

lemma scanSliceLoop_spec (zero : β) :
    ∀ (rows : List (Except GoError β)) (acc : List β) (errVar : Option GoError),
      scanSliceLoop zero errVar rows acc =
        (acc ++ rows.map (elemOf zero), rows.length + 1,
          (rows.getLast?.map scanErrOf).getD errVar) := by
  intro rows
  induction rows with
  | nil => intro acc errVar; simp [scanSliceLoop]
  | cons row rest ih =>
      intro acc errVar
      have ihr := ih (acc ++ [elemOf zero row]) (scanErrOf row)
      simp only [scanSliceLoop, ihr, Prod.mk.injEq]
      refine ⟨by simp, by simp, ?_⟩
      cases rest with
      | nil => simp
      | cons b t =>
          rcases hlast : (b :: t).getLast? with _ | last
          · have hs := getLast?_cons_isSome b t
            rw [hlast] at hs
            simp at hs
          · simp [List.getLast?_cons_cons, hlast]

lemma runRows_capture (items : List Row) (fin : Fetch Row)
    (hfin : fin = Fetch.eod ∨ fin = Fetch.eoq) :
    ∀ r : RowsIter, r.it.feed = items.map Fetch.ok ++ [fin] →
      r.it.lasterr = none →
      (r.it.state = IterState.init ∨ r.it.state = IterState.rowReady) →
      (runRows (items.length + 1) r).2.meta = some (captureMetadata r.drv) ∧
      ((runRows (items.length + 1) r).2.it.state = IterState.closed ∨
        (runRows (items.length + 1) r).2.it.state = IterState.eoq) := by
  induction items with
  | nil =>
      intro r hfeed herr hstate
      have hs1 : r.it.state ≠ IterState.closed := by
        rcases hstate with h | h <;> simp [h]
      have hs2 : r.it.state ≠ IterState.eoq := by
        rcases hstate with h | h <;> simp [h]
      simp only [List.map_nil, List.nil_append] at hfeed
      rcases hfin with h | h <;> subst h <;>
        simp [runRows, rowsNext, advance, hfeed, herr, hs1, hs2]
  | cons a rest ih =>
      intro r hfeed herr hstate
      have hs1 : r.it.state ≠ IterState.closed := by
        rcases hstate with h | h <;> simp [h]
      have hs2 : r.it.state ≠ IterState.eoq := by
        rcases hstate with h | h <;> simp [h]
      simp only [List.map_cons, List.cons_append] at hfeed
      have hadv : rowsNext r =
          (true, ⟨⟨rest.map Fetch.ok ++ [fin], IterState.rowReady, a, none⟩,
            r.drv, r.meta, r.rerr⟩) := by
        simp [rowsNext, advance, hfeed, herr, hs1, hs2]
      have hrec := ih ⟨⟨rest.map Fetch.ok ++ [fin], IterState.rowReady, a, none⟩,
        r.drv, r.meta, r.rerr⟩ rfl rfl (Or.inr rfl)
      have hstep : runRows ((a :: rest).length + 1) r =
          ((rowsNext r).1 :: (runRows (rest.length + 1) (rowsNext r).2).1,
            (runRows (rest.length + 1) (rowsNext r).2).2) := rfl
      rw [hstep, hadv]
      simpa using hrec

/-- C6: `NextResultSet` called while the state is `RowReady` fails, setting
the sticky `lastError` and returning false; called with a recorded error or
in state `Closed` it returns false and changes nothing; otherwise it
succeeds, setting the state to `ResultSetReady` and returning true. -/
theorem nextResultSet_state_machine (r : RowsIter) :
    (r.it.lasterr = none → r.it.state = IterState.rowReady →
      nextResultSet r =
        (false, { r with it := { r.it with lasterr := some errNextResultSet } })) ∧
    (r.it.lasterr.isSome = true ∨ r.it.state = IterState.closed →
      nextResultSet r = (false, r)) ∧
    (r.it.lasterr = none → r.it.state ≠ IterState.closed →
      r.it.state ≠ IterState.rowReady →
      nextResultSet r =
        (true, { r with it := { r.it with state := IterState.resultSetReady } })) := by
  refine ⟨?_, ?_, ?_⟩
  · intro h1 h2
    simp [nextResultSet, h1, h2]
  · intro h
    rcases h with h | h
    · simp [nextResultSet, h]
    · rcases he : r.it.lasterr with _ | e
      · simp [nextResultSet, he, h]
      · simp [nextResultSet, he]
  · intro h1 h2 h3
    simp [nextResultSet, h1, h2, h3]

/-- Witness for C6: the three behaviours at concrete iterators (in states
`RowReady`, `Closed` and `Init`). -/
theorem nextResultSet_state_machine_witness :
    nextResultSet ⟨⟨[], IterState.rowReady, {}, none⟩, {}, none, none⟩ =
      (false, ⟨⟨[], IterState.rowReady, {}, some errNextResultSet⟩, {}, none, none⟩) ∧
    nextResultSet ⟨⟨[], IterState.closed, {}, none⟩, {}, none, none⟩ =
      (false, ⟨⟨[], IterState.closed, {}, none⟩, {}, none, none⟩) ∧
    nextResultSet ⟨⟨[], IterState.init, {}, none⟩, {}, none, none⟩ =
      (true, ⟨⟨[], IterState.resultSetReady, {}, none⟩, {}, none, none⟩) := by
  refine ⟨?_, ?_, ?_⟩
  · simpa using (nextResultSet_state_machine
      ⟨⟨[], IterState.rowReady, {}, none⟩, {}, none, none⟩).1 rfl rfl
  · exact (nextResultSet_state_machine
      ⟨⟨[], IterState.closed, {}, none⟩, {}, none, none⟩).2.1 (Or.inr rfl)
  · simpa using (nextResultSet_state_machine
      ⟨⟨[], IterState.init, {}, none⟩, {}, none, none⟩).2.2 rfl (by decide) (by decide)

/-- C7: `Metadata()` fails with the "not ready" bad-request error whenever
the state is neither `EndOfQuery` nor `Closed`; once the feed has signalled
end-of-query or end-of-data, `Metadata()` returns the feed-reported offset,
total rows, update sequence, warning and bookmark, each optional capability
field left at its zero value when the driver does not implement it. -/
theorem metadata_gating_and_capture :
    (∀ r : RowsIter, r.it.state ≠ IterState.eoq → r.it.state ≠ IterState.closed →
      rowsMetadata r = (some metadataNotReady, none)) ∧
    (∀ (drv : DriverRows) (items : List Row) (fin : Fetch Row),
      fin = Fetch.eod ∨ fin = Fetch.eoq →
      rowsMetadata (runRows (items.length + 1)
          (newRows drv (items.map Fetch.ok ++ [fin]))).2 =
        (none, some { offset := drv.offset, totalRows := drv.totalRows,
                      updateSeq := drv.updateSeq, warning := drv.warner.getD "",
                      bookmark := drv.bookmarker.getD "" })) := by
  constructor
  · intro r h1 h2
    simp [rowsMetadata, h1, h2]
  · intro drv items fin hfin
    have h := runRows_capture items fin hfin
      (newRows drv (items.map Fetch.ok ++ [fin])) rfl rfl (Or.inl rfl)
    simp only [rowsMetadata]
    rw [if_pos (Or.symm h.2), h.1]
    simp [newRows, captureMetadata]

/-- Witness for C7: a not-ready error in `RowReady`, and after a feed of two
rows plus end-of-data the captured metadata of a driver implementing
`RowsWarner` but not `Bookmarker`. -/
theorem metadata_gating_and_capture_witness :
    rowsMetadata ⟨⟨[], IterState.rowReady, {}, none⟩, {}, none, none⟩ =
      (some metadataNotReady, none) ∧
    rowsMetadata (runRows 3 (newRows ⟨7, 42, "9-seq", some "warn", none⟩
        [Fetch.ok {}, Fetch.ok {}, Fetch.eod])).2 =
      (none, some ⟨7, 42, "9-seq", "warn", ""⟩) := by
  constructor
  · exact metadata_gating_and_capture.1 _ (by decide) (by decide)
  · simpa using metadata_gating_and_capture.2 ⟨7, 42, "9-seq", some "warn", none⟩
      [{}, {}] Fetch.eod (Or.inl rfl)

/-- C8: `ScanDoc` fails with the "no document in result" bad-request error
whenever the current row carries no document payload; when a document
payload is present, it decodes that payload into the supplied destination
(the decode outcome `dec p` of the row's payload is returned). -/
theorem scanDoc_requires_doc_payload (r : RowsIter) (dec : String → Option GoError)
    (p : String) (h0 : r.rerr = none) (h1 : r.it.state = IterState.rowReady)
    (h2 : r.it.curVal.error = none) (h3 : r.it.curVal.docReader = none) :
    (r.it.curVal.doc = none → scanDoc r dec = (some noDocErr, r)) ∧
    (r.it.curVal.doc = some p → scanDoc r dec = (dec p, r)) := by
  have hmr : makeReady r = r := by simp [makeReady, h1]
  constructor
  · intro hd; simp [scanDoc, h0, hmr, h2, h3, hd]
  · intro hd; simp [scanDoc, h0, hmr, h2, h3, hd]

/-- Witness for C8: a row without document payload yields the bad-request
error; a row with payload `"the-doc"` hands exactly that payload to the
decoder. -/
theorem scanDoc_requires_doc_payload_witness :
    scanDoc ⟨⟨[], IterState.rowReady, ⟨"id1", "k", "", none, none, none, none⟩, none⟩,
        {}, none, none⟩ (fun s => some (GoError.decodeErr s)) =
      (some noDocErr,
        ⟨⟨[], IterState.rowReady, ⟨"id1", "k", "", none, none, none, none⟩, none⟩,
          {}, none, none⟩) ∧
    scanDoc ⟨⟨[], IterState.rowReady, ⟨"id2", "k", "", none, some "the-doc", none, none⟩,
        none⟩, {}, none, none⟩ (fun s => some (GoError.decodeErr s)) =
      (some (GoError.decodeErr "the-doc"),
        ⟨⟨[], IterState.rowReady, ⟨"id2", "k", "", none, some "the-doc", none, none⟩,
          none⟩, {}, none, none⟩) := by
  constructor
  · exact (scanDoc_requires_doc_payload _ _ "x" rfl rfl rfl rfl).1 rfl
  · exact (scanDoc_requires_doc_payload _ _ "the-doc" rfl rfl rfl rfl).2 rfl

/-- C9: every method of an errored result set is safe after the error: on
`errRS`, `Next` and `NextResultSet` return false and `Err`, `Close`,
`Metadata`, `Finish` and the scan methods surface the recorded error; on
`rows`, the scan methods return the locally recorded `rows.err` at once,
leaving the iterator (and hence the feed) untouched. -/
theorem errored_resultset_methods_safe (x : ErrRS) (r : RowsIter) (e : GoError)
    (dec : String → Option GoError) (h : r.rerr = some e) :
    x.Next = false ∧ x.NextResultSet = false ∧ x.Err = some x.err ∧
    x.Close = some x.err ∧ x.Metadata = (some x.err, none) ∧
    x.Finish = ({}, some x.err) ∧ x.ID = "" ∧ x.Key = "" ∧
    x.ScanDoc = some x.err ∧ x.ScanKey = some x.err ∧ x.ScanValue = some x.err ∧
    scanValue r dec = (some e, r) ∧ scanDoc r dec = (some e, r) ∧
    scanKey r dec = (some e, r) := by
  refine ⟨rfl, rfl, rfl, rfl, rfl, rfl, rfl, rfl, rfl, rfl, rfl, ?_, ?_, ?_⟩ <;>
    simp [scanValue, scanDoc, scanKey, h]

/-- Witness for C9: a concrete errored result set and a concrete `rows`
value with a recorded error. -/
theorem errored_resultset_methods_safe_witness :
    ErrRS.Err ⟨GoError.errorsNew "boom"⟩ = some (GoError.errorsNew "boom") ∧
    ErrRS.Next ⟨GoError.errorsNew "boom"⟩ = false ∧
    scanDoc ⟨⟨[Fetch.ok {}], IterState.init, {}, none⟩, {}, none,
        some (GoError.errorsNew "sticky")⟩ (fun _ => none) =
      (some (GoError.errorsNew "sticky"),
        ⟨⟨[Fetch.ok {}], IterState.init, {}, none⟩, {}, none,
          some (GoError.errorsNew "sticky")⟩) := by
  obtain ⟨h1, -, h3, -, -, -, -, -, -, -, -, -, hd, -⟩ :=
    errored_resultset_methods_safe ⟨GoError.errorsNew "boom"⟩
      ⟨⟨[Fetch.ok {}], IterState.init, {}, none⟩, {}, none,
        some (GoError.errorsNew "sticky")⟩
      (GoError.errorsNew "sticky") (fun _ => none) rfl
  exact ⟨h3, h1, hd⟩

/-- C5: bulk-scan into a fixed-capacity destination of length 0 is rejected
with the "0-length array" error before any iteration: no `Next` call is
made and every row is left unconsumed (the deferred `Close` still runs, and
its error is suppressed by the earlier error). -/
theorem scanAll_zero_length_array_rejected (src : ScanSource β) (zero : β)
    (h : src.initialErr = none) :
    scanAll src (ScanDest.ptrArray []) zero =
      { err := some errZeroLenArray, dest := ScanDest.ptrArray [],
        remaining := src.rows, nextCalls := 0, closeCalled := true,
        lastScanErr := none } := by
  simp [scanAll, h, goReturn]

/-- Witness for C5: a zero-length array destination over a two-row source
with a failing close. -/
theorem scanAll_zero_length_array_rejected_witness :
    scanAll (⟨none, [Except.ok 5, Except.ok 6], some (GoError.errorsNew "close fail")⟩ :
        ScanSource Nat) (ScanDest.ptrArray []) 0 =
      { err := some errZeroLenArray, dest := ScanDest.ptrArray [],
        remaining := [Except.ok 5, Except.ok 6], nextCalls := 0,
        closeCalled := true, lastScanErr := none } :=
  scanAll_zero_length_array_rejected
    ⟨none, [Except.ok 5, Except.ok 6], some (GoError.errorsNew "close fail")⟩ 0 rfl

/-- C1 counterexample: with destination capacity 3 and a source of 5 items,
`scanAll` fills the first 3 into the destination, but the result set is not
left open: the deferred `Close` runs (`closeCalled = true`), and a 4th
`Next` call was already consumed before the limit check, so only the 5th
item remains unconsumed (advancing afterwards could not yield the 4th
item). -/
theorem scanAll_capacity3_source5_closes_and_consumes_extra :
    scanAll (⟨none, [Except.ok 10, Except.ok 20, Except.ok 30, Except.ok 40,
        Except.ok 50], none⟩ : ScanSource Nat) (ScanDest.ptrArray [0, 0, 0]) 0 =
      { err := none, dest := ScanDest.ptrArray [10, 20, 30],
        remaining := [Except.ok 50], nextCalls := 4, closeCalled := true,
        lastScanErr := none } := by
  rfl

/-- C1 (amended): for a fixed-capacity destination of length K > 0 and a
source of all-decodable rows numbering more than K, `scanAll` writes exactly
the first K items into the destination and stops; but it makes K+1 `Next`
calls (consuming the (K+1)-th row before noticing the limit), and the
deferred `Close` always closes the result set before returning, the close
error becoming the returned error. -/
theorem scanAll_array_stops_after_capacity (src : ScanSource β) (items : List β)
    (cells : List β) (zero : β) (h0 : src.initialErr = none)
    (hrows : src.rows = items.map Except.ok) (hpos : 0 < cells.length)
    (hmore : cells.length < items.length) :
    scanAll src (ScanDest.ptrArray cells) zero =
      { err := src.closeErr,
        dest := ScanDest.ptrArray (items.take cells.length),
        remaining := (items.map Except.ok).drop (cells.length + 1),
        nextCalls := cells.length + 1, closeCalled := true,
        lastScanErr := none } := by
  have hloop := scanArrayLoop_ok_overflow zero cells.length items cells 0 none rfl
    (Nat.zero_le _) (by simpa using hmore)
  have hne : ¬ cells.length = 0 := by omega
  have hne2 : ¬ cells.length = 0 := hne
  simp only [scanAll, h0, hrows, if_neg hne, hloop, goReturn]
  simp [if_neg hne2, Nat.sub_zero]

/-- Witness for C1 (amended): capacity 2, four items, failing close. -/
theorem scanAll_array_stops_after_capacity_witness :
    scanAll (⟨none, [Except.ok 1, Except.ok 2, Except.ok 3, Except.ok 4],
        some (GoError.errorsNew "closefail")⟩ : ScanSource Nat)
      (ScanDest.ptrArray [9, 9]) 0 =
      { err := some (GoError.errorsNew "closefail"),
        dest := ScanDest.ptrArray [1, 2], remaining := [Except.ok 4],
        nextCalls := 3, closeCalled := true, lastScanErr := none } := by
  simpa using scanAll_array_stops_after_capacity
    (⟨none, [Except.ok 1, Except.ok 2, Except.ok 3, Except.ok 4],
      some (GoError.errorsNew "closefail")⟩ : ScanSource Nat)
    [1, 2, 3, 4] [9, 9] 0 rfl rfl (by decide) (by decide)

/-- C2 counterexample: a source whose first row fails to decode while a
later row remains; `scanAll` returns nil — not the decode error — because
both exits of its scan loop are `return nil`, which resets the named return
`err` before the deferred close runs.  The zero value written for the failed
row and the later decoded element both sit in the destination. -/
theorem scanAll_does_not_return_decode_error :
    scanAll (⟨none, [Except.error (GoError.decodeErr "bad row"), Except.ok 7],
        none⟩ : ScanSource Nat) (ScanDest.ptrSlice []) 0 =
      { err := none, dest := ScanDest.ptrSlice [0, 7], remaining := [],
        nextCalls := 3, closeCalled := true, lastScanErr := none } := by
  rfl

/-- C2 (amended): for a growable (slice) destination, `scanAll` drains every
row; each row contributes one element (already-written elements remain even
after a decode failure), and the returned error is the close error (nil if
the close succeeds) — row decode errors are recorded into the loop variable
but discarded by the final `return nil`. -/
theorem scanAll_slice_close_error_and_elements_remain (src : ScanSource β)
    (elems : List β) (zero : β) (h : src.initialErr = none) :
    scanAll src (ScanDest.ptrSlice elems) zero =
      { err := src.closeErr,
        dest := ScanDest.ptrSlice (elems ++ src.rows.map (elemOf zero)),
        remaining := [], nextCalls := src.rows.length + 1, closeCalled := true,
        lastScanErr := (src.rows.getLast?.map scanErrOf).getD none } := by
  have hloop := scanSliceLoop_spec zero src.rows elems none
  simp [scanAll, h, hloop, goReturn]

/-- Witness for C2 (amended): a middle row fails to decode, the close also
fails; the close error is returned and all three elements (with a zero at
the failed position) are appended after the pre-existing element. -/
theorem scanAll_slice_close_error_and_elements_remain_witness :
    scanAll (⟨none, [Except.ok 4, Except.error (GoError.decodeErr "mid"),
        Except.ok 6], some (GoError.errorsNew "clo")⟩ : ScanSource Nat)
      (ScanDest.ptrSlice [1]) 0 =
      { err := some (GoError.errorsNew "clo"),
        dest := ScanDest.ptrSlice [1, 4, 0, 6], remaining := [],
        nextCalls := 4, closeCalled := true, lastScanErr := none } := by
  simpa using scanAll_slice_close_error_and_elements_remain
    (⟨none, [Except.ok 4, Except.error (GoError.decodeErr "mid"), Except.ok 6],
      some (GoError.errorsNew "clo")⟩ : ScanSource Nat) [1] 0 rfl

/-- C4 counterexample: the single row fails to decode, yet the close error is
returned to the caller — an earlier (decode) error occurred but does not take
precedence, because the final `return nil` discards it. -/
theorem scanAll_close_error_despite_decode_failure :
    scanAll (⟨none, [Except.error (GoError.decodeErr "bad")],
        some (GoError.errorsNew "close failed")⟩ : ScanSource Nat)
      (ScanDest.ptrSlice []) 0 =
      { err := some (GoError.errorsNew "close failed"),
        dest := ScanDest.ptrSlice [0], remaining := [], nextCalls := 2,
        closeCalled := true,
        lastScanErr := some (GoError.decodeErr "bad") } := by
  rfl

/-- C4 (amended): `Close` is invoked on every path of `scanAll` before it
returns; the close error is returned exactly when the body's returned error
is nil — the initial iteration error and the destination-validation errors
take precedence over the close error, while row decode errors do not (the
loop exits return nil). -/
theorem scanAll_always_closes_precedence (src : ScanSource β) (dest : ScanDest β)
    (zero : β) :
    (scanAll src dest zero).closeCalled = true ∧
    (∀ e, src.initialErr = some e → (scanAll src dest zero).err = some e) ∧
    (src.initialErr = none → ∀ cells, dest = ScanDest.ptrArray cells →
      cells ≠ [] → (scanAll src dest zero).err = src.closeErr) ∧
    (src.initialErr = none → ∀ elems, dest = ScanDest.ptrSlice elems →
      (scanAll src dest zero).err = src.closeErr) ∧
    (src.initialErr = none → dest = ScanDest.ptrArray [] →
      (scanAll src dest zero).err = some errZeroLenArray) := by
  refine ⟨?_, ?_, ?_, ?_, ?_⟩
  · rcases hi : src.initialErr with _ | e
    · cases dest with
      | notPtr => simp [scanAll, hi, goReturn]
      | nilPtr => simp [scanAll, hi, goReturn]
      | ptrOther => simp [scanAll, hi, goReturn]
      | ptrArray cells =>
          by_cases hc : cells.length = 0 <;> simp [scanAll, hi, hc, goReturn]
      | ptrSlice elems => simp [scanAll, hi, goReturn]
    · simp [scanAll, hi, goReturn]
  · intro e he
    simp [scanAll, he, goReturn]
  · intro h0 cells hdest hne
    subst hdest
    have hc : ¬ cells.length = 0 := by simpa using hne
    simp [scanAll, h0, hc, goReturn]
  · intro h0 elems hdest
    subst hdest
    simp [scanAll, h0, goReturn]
  · intro h0 hdest
    subst hdest
    simp [scanAll, h0, goReturn]

/-- Witness for C4 (amended): the initial error takes precedence over a
failing close; a valid one-cell array destination surfaces the close error;
the zero-length array error takes precedence over the close error. -/
theorem scanAll_always_closes_precedence_witness :
    (scanAll (⟨some (GoError.errorsNew "early"), [],
        some (GoError.errorsNew "clo")⟩ : ScanSource Nat)
      (ScanDest.ptrSlice []) 0).err = some (GoError.errorsNew "early") ∧
    (scanAll (⟨none, [Except.error (GoError.decodeErr "x")],
        some (GoError.errorsNew "clo")⟩ : ScanSource Nat)
      (ScanDest.ptrArray [0]) 0).err = some (GoError.errorsNew "clo") ∧
    (scanAll (⟨none, [], some (GoError.errorsNew "clo")⟩ : ScanSource Nat)
      (ScanDest.ptrArray []) 0).err = some errZeroLenArray ∧
    (scanAll (⟨none, [], none⟩ : ScanSource Nat)
      (ScanDest.notPtr) 0).closeCalled = true := by
  refine ⟨?_, ?_, ?_, ?_⟩
  · exact (scanAll_always_closes_precedence _ _ _).2.1 _ rfl
  · exact (scanAll_always_closes_precedence _ _ _).2.2.1 rfl [0] rfl (by decide)
  · exact (scanAll_always_closes_precedence _ _ _).2.2.2.2 rfl rfl
  · exact (scanAll_always_closes_precedence _ _ _).1

/-- C10 counterexample: the claim predicts that the error returned by
`scanAll` is the result of the last row's decode; here the last row fails to
decode with an error that the loop records (`lastScanErr`), yet `scanAll`
returns nil — the final `return nil` discards even the last row's decode
error. -/
theorem scanAll_last_row_decode_error_discarded :
    scanAll (⟨none, [Except.ok 1, Except.error (GoError.decodeErr "row two bad")],
        none⟩ : ScanSource Nat) (ScanDest.ptrSlice []) 0 =
      { err := none, dest := ScanDest.ptrSlice [1, 0], remaining := [],
        nextCalls := 3, closeCalled := true,
        lastScanErr := some (GoError.decodeErr "row two bad") } := by
  rfl

/-- C10 (amended): after a row fails to decode, `scanAll` (slice
destination) keeps iterating — one element per row, the failed row leaving a
zero-valued element at its position and later rows written as well; the
decode error is assigned to the loop variable but every decode error
(earlier or last) is discarded: the returned error is the close error, or
nil. -/
theorem scanAll_continues_after_decode_failure (src : ScanSource β) (zero : β)
    (pre post : List (Except GoError β)) (e : GoError)
    (h0 : src.initialErr = none)
    (hrows : src.rows = pre ++ Except.error e :: post) :
    scanAll src (ScanDest.ptrSlice []) zero =
      { err := src.closeErr,
        dest := ScanDest.ptrSlice
          (pre.map (elemOf zero) ++ zero :: post.map (elemOf zero)),
        remaining := [], nextCalls := pre.length + post.length + 2,
        closeCalled := true,
        lastScanErr :=
          ((Except.error e :: post).getLast?.map scanErrOf).getD none } := by
  have hloop := scanSliceLoop_spec zero (pre ++ Except.error e :: post) ([] : List β) none
  have hlast : (pre ++ Except.error e :: post).getLast? =
      (Except.error e :: post).getLast? := List.getLast?_append_cons pre _ post
  rw [hlast] at hloop
  simp only [scanAll, h0, hrows, goReturn, hloop]
  simp [List.map_append, elemOf, List.length_append]
  omega

/-- Witness for C10 (amended): one good row, one failing row, one further
good row; the destination is `[5, 0, 9]` and the returned error is nil. -/
theorem scanAll_continues_after_decode_failure_witness :
    scanAll (⟨none, [Except.ok 5, Except.error (GoError.decodeErr "mid bad"),
        Except.ok 9], none⟩ : ScanSource Nat) (ScanDest.ptrSlice []) 0 =
      { err := none, dest := ScanDest.ptrSlice [5, 0, 9], remaining := [],
        nextCalls := 4, closeCalled := true, lastScanErr := none } := by
  simpa using scanAll_continues_after_decode_failure
    (⟨none, [Except.ok 5, Except.error (GoError.decodeErr "mid bad"),
      Except.ok 9], none⟩ : ScanSource Nat) 0
    [Except.ok 5] [Except.ok 9] (GoError.decodeErr "mid bad") rfl rfl
